import Mathlib

/-!
Verification of the reporting/aggregation and data-access logic of the
expense-tracker application (src/app.py, src/init_db.py).

Conventions of the embedding:
* Monetary amounts (Postgres NUMERIC, Python Decimal) are modelled as
  rationals, which is exact for every decimal value; the float conversions
  at the JSON boundary of app.py are serialization and are not modelled.
* Calendar dates are triples of year, month, day.  Date.serial is the
  standard civil-calendar day count (days since 1970-01-01), which gives
  the date comparisons and day-of-week labels used by the SQL of app.py.
* A SQL aggregate with no rows yields NULL, modelled as Option.
* A Python dict built by a comprehension or by repeated assignment is
  modelled as the association list of insertions; lookup takes the last
  binding of a key, which is the dict overwrite semantics.
* Tables are lists of rows owned by the queries that read them.
-/

/-- Calendar date without time of day, as stored in the expense_date and
investment_date columns. -/
structure Date where
  year : ℕ
  month : ℕ
  day : ℕ
deriving DecidableEq

/-- Days since 1970-01-01 of a civil date (standard days-from-civil
algorithm).  All intermediate quantities are nonnegative for years from 1
on, so the rounding mode of integer division does not matter there.  This
is the day count underlying CURRENT_DATE arithmetic and to_char day names
in the queries of app.py. -/
def Date.serial (x : Date) : ℤ :=
  let y : ℤ := if x.month ≤ 2 then (x.year : ℤ) - 1 else (x.year : ℤ)
  let era : ℤ := (if 0 ≤ y then y else y - 399) / 400
  let yoe : ℤ := y - era * 400
  let mp : ℤ := (x.month : ℤ) + (if 2 < x.month then -3 else 9)
  let doy : ℤ := (153 * mp + 2) / 5 + (x.day : ℤ) - 1
  let doe : ℤ := yoe * 365 + yoe / 4 - yoe / 100 + doy
  era * 146097 + doe - 719468

/-- Upper-case three-letter day names in Postgres order, indexed so that
serial day 0 (1970-01-01, a Thursday) gets index 4. -/
def dayNames : List String := ["SUN", "MON", "TUE", "WED", "THU", "FRI", "SAT"]

/-- Day-of-week label of a serial day: what to_char(expense_date, 'DY')
followed by the strip().upper() of app.py line 341 produces (the DY
pattern already yields the upper-case three-letter abbreviation). -/
def dayLabel (s : ℤ) : String := dayNames.getD ((s + 4) % 7).toNat ""

/-- Row of the expenses table.  The title, description and payment-method
columns never enter any aggregation and are omitted. -/
structure Expense where
  amount : ℚ
  category : String
  date : Date
deriving DecidableEq

/-- Month filter of app.py lines 318, 344, 356, 556: date_part month of
the expense date equals date_part month of CURRENT_DATE.  Only the month
number is compared; the year is not part of the predicate. -/
def monthMatches (today : Date) (e : Expense) : Bool :=
  e.date.month == today.month

/-- A SQL SUM aggregate over a set of values: NULL (none) when there are
no rows, otherwise the sum. -/
def sqlSum (l : List ℚ) : Option ℚ :=
  if l.isEmpty then none else some l.sum

/-- Monthly spend total of the dashboard (app.py lines 318-319):
SELECT SUM(amount) FROM expenses WHERE user and month filter, with the
Python "or 0" replacing a NULL result. -/
def total_spent_this_month (expenses : List Expense) (today : Date) : ℚ :=
  (sqlSum ((expenses.filter (monthMatches today)).map fun e => e.amount)).getD 0

/-- Budget utilization of the dashboard (app.py line 330): the percentage
is computed only under the guard total_budget > 0 and is 0 otherwise. -/
def budget_used_percent (total_spent total_budget : ℚ) : ℚ :=
  if 0 < total_budget then total_spent / total_budget * 100 else 0

/-- Current-month spend of one category: the per-group SUM of the
GROUP BY category queries (app.py lines 344, 356, 556). -/
def monthCatSum (expenses : List Expense) (today : Date) (c : String) : ℚ :=
  (((expenses.filter (monthMatches today)).filter fun e => e.category == c).map
    fun e => e.amount).sum

/-- The distinct categories among the current-month expenses: the keys the
GROUP BY category queries produce. -/
def monthCats (expenses : List Expense) (today : Date) : List String :=
  ((expenses.filter (monthMatches today)).map fun e => e.category).dedup

/-- Category pie-chart data of the dashboard (app.py lines 344-345):
current-month expenses grouped by category, ordered by total descending. -/
def expense_by_category (expenses : List Expense) (today : Date) : List (String × ℚ) :=
  List.insertionSort (fun a b : String × ℚ => b.2 ≤ a.2)
    ((monthCats expenses today).map fun c => (c, monthCatSum expenses today c))

/-- Year-month grouping key: to_char(expense_date, 'YYYY-MM') of app.py
line 548.  For four-digit years the lexicographic order of the zero-padded
strings is exactly the numeric order of year * 100 + month, so the key is
embedded as that number. -/
def ymKey (d : Date) : ℕ := d.year * 100 + d.month

/-- The distinct year-month keys among the expenses of a user. -/
def monthKeys (expenses : List Expense) : List ℕ :=
  (expenses.map fun e => ymKey e.date).dedup

/-- Per-month SUM of the GROUP BY month query of app.py lines 547-551. -/
def monthTotal (expenses : List Expense) (k : ℕ) : ℚ :=
  ((expenses.filter fun e => ymKey e.date == k).map fun e => e.amount).sum

/-- Descending order on year-month keys: the ORDER BY month DESC of app.py
line 550. -/
def descKey (a b : ℕ) : Prop := b ≤ a

instance : DecidableRel descKey := fun a b => Nat.decLe b a

instance : IsTotal ℕ descKey := ⟨fun a b => le_total b a⟩

instance : IsTrans ℕ descKey := ⟨fun _ _ _ h1 h2 => le_trans h2 h1⟩

instance : IsAntisymm ℕ descKey := ⟨fun _ _ h1 h2 => le_antisymm h2 h1⟩

/-- Multi-month report series (app.py lines 547-553): per-month sums,
ordered descending by key, limited to 6 rows, then reversed into an
insertion-ordered dict keyed by the year-month string. -/
def expenses_by_month (expenses : List Expense) : List (ℕ × ℚ) :=
  (((List.insertionSort descKey (monthKeys expenses)).take 6).reverse).map
    fun k => (k, monthTotal expenses k)

/-- Row of the category_budgets table. -/
structure CategoryBudget where
  category_name : String
  amount : ℚ
deriving DecidableEq

/-- Lookup in a Python dict represented as its insertion list: the last
binding of the key wins, none when the key is absent. -/
def pyDictLookup (l : List (String × ℚ)) (k : String) : Option ℚ :=
  ((l.filter fun p => p.1 == k).getLast?).map Prod.snd

/-- The dict.get(key, default) of Python. -/
def pyDictGet (l : List (String × ℚ)) (k : String) (d : ℚ) : ℚ :=
  (pyDictLookup l k).getD d

/-- The actual_spending dict of app.py lines 556-557: current-month
expenses grouped by category. -/
def actual_spending (expenses : List Expense) (today : Date) : List (String × ℚ) :=
  (monthCats expenses today).map fun c => (c, monthCatSum expenses today c)

/-- The budgeted_amounts dict of app.py lines 558-559: one entry per
category_budgets row. -/
def budgeted_amounts (cbs : List CategoryBudget) : List (String × ℚ) :=
  cbs.map fun b => (b.category_name, b.amount)

/-- The sorted union of category names of app.py line 561:
sorted(list(set(actual) | set(budgeted))). -/
def all_budget_cats (expenses : List Expense) (cbs : List CategoryBudget)
    (today : Date) : List String :=
  List.insertionSort (fun a b : String => a ≤ b)
    (((actual_spending expenses today).map Prod.fst
      ++ (budgeted_amounts cbs).map Prod.fst).dedup)

/-- The budgeted array of app.py line 564, aligned by index with the
label list, defaulting to 0. -/
def budget_vs_actual_budgeted (expenses : List Expense) (cbs : List CategoryBudget)
    (today : Date) : List ℚ :=
  (all_budget_cats expenses cbs today).map fun c => pyDictGet (budgeted_amounts cbs) c 0

/-- The actual array of app.py line 565, aligned by index with the label
list, defaulting to 0. -/
def budget_vs_actual_actual (expenses : List Expense) (cbs : List CategoryBudget)
    (today : Date) : List ℚ :=
  (all_budget_cats expenses cbs today).map fun c => pyDictGet (actual_spending expenses today) c 0

/-- The rows the weekly query of app.py line 340 ranges over: WHERE
expense_date >= current_date - interval 6 days.  There is no upper bound
on the date in the query. -/
def weeklyEs (expenses : List Expense) (today : Date) : List Expense :=
  expenses.filter fun e => decide (today.serial - 6 ≤ e.date.serial)

/-- Per-date SUM of the weekly query, which has GROUP BY expense_date. -/
def dateSum (expenses : List Expense) (today : Date) (s : ℤ) : ℚ :=
  (((weeklyEs expenses today).filter fun e => e.date.serial == s).map
    fun e => e.amount).sum

/-- The distinct expense dates in the weekly window, in the ORDER BY
expense_date order of app.py line 340. -/
def weeklyDates (expenses : List Expense) (today : Date) : List ℤ :=
  List.insertionSort (fun a b : ℤ => a ≤ b)
    (((weeklyEs expenses today).map fun e => e.date.serial).dedup)

/-- Result rows of the weekly query: one row per date, carrying the day
label and the per-date total. -/
def weekly_rows (expenses : List Expense) (today : Date) : List (ℤ × ℚ) :=
  (weeklyDates expenses today).map fun s => (s, dateSum expenses today s)

/-- The weekly_expenses_data dict of app.py line 341: day label mapped to
per-date total, built row by row, so rows of equal label overwrite. -/
def weekly_expenses_data (expenses : List Expense) (today : Date) : List (String × ℚ) :=
  (weekly_rows expenses today).map fun p => (dayLabel p.1, p.2)

/-- Modelled from the words of claim C6, NOT from the code: the expenses
whose date lies in the trailing 7 days inclusive of today and whose
day-of-week label is the given one. -/
def claimed_weekly_filter (expenses : List Expense) (today : Date) (k : String) :
    List Expense :=
  expenses.filter fun e =>
    decide (today.serial - 6 ≤ e.date.serial) && decide (e.date.serial ≤ today.serial)
      && (dayLabel e.date.serial == k)

/-- Modelled from the words of claim C6, NOT from the code: the value the
claim says the weekly series assigns to a label, absent when no trailing
7-day expense bears the label. -/
def claimed_weekly_value (expenses : List Expense) (today : Date) (k : String) :
    Option ℚ :=
  if (claimed_weekly_filter expenses today k).isEmpty then none
  else some (((claimed_weekly_filter expenses today k).map fun e => e.amount).sum)

/-- Row of the financial_goals table. -/
structure Goal where
  id : ℕ
  user_id : ℕ
  goal_name : String
  target_amount : ℚ
  goal_type : String
deriving DecidableEq

/-- Effect on the financial_goals table of the delete of app.py line 299:
DELETE FROM financial_goals WHERE id = goal_id AND user_id = acting user.
The ownership check is part of the delete predicate. -/
def delete_goal (goals : List Goal) (goal_id acting_user : ℕ) : List Goal :=
  goals.filter fun g => !(g.id == goal_id && g.user_id == acting_user)

/-- Rows the delete of app.py line 299 touches. -/
def delete_goal_affected (goals : List Goal) (goal_id acting_user : ℕ) : ℕ :=
  (goals.filter fun g => g.id == goal_id && g.user_id == acting_user).length

/-- Goal list of one user: SELECT * FROM financial_goals WHERE user_id
(app.py line 333). -/
def user_goals (goals : List Goal) (uid : ℕ) : List Goal :=
  goals.filter fun g => g.user_id == uid

/-- The delete_goal handler (app.py lines 293-304): it runs the delete,
commits, and unconditionally flashes the removal message; no error is
surfaced for a missing or foreign row. -/
def delete_goal_handler (goals : List Goal) (goal_id acting_user : ℕ) :
    List Goal × String :=
  (delete_goal goals goal_id acting_user, "Goal removed.")

/-- The category_budgets table as seen by the budget handler: rows of
user id, category name and amount. -/
abbrev CatTable := List (ℕ × String × ℚ)

/-- One statement issued on the psycopg2 connection: either a data
statement or conn.commit(). -/
inductive DBStep
  | stmt (f : CatTable → CatTable)
  | commit

/-- State of the database as seen through one psycopg2 connection: the
committed (externally visible) table and the pending table of the implicit
transaction the driver opens with the first statement. -/
structure ConnState where
  committed : CatTable
  pending : CatTable

/-- Execution of one step: a data statement only changes the pending
table; conn.commit() publishes the pending table. -/
def runStep (s : ConnState) : DBStep → ConnState
  | .stmt f => { s with pending := f s.pending }
  | .commit => { s with committed := s.pending }

/-- Execution of a statement sequence on one connection. -/
def runSteps (s : ConnState) (prog : List DBStep) : ConnState :=
  prog.foldl runStep s

/-- Committed state after the handler fails right after its first k steps:
the remaining statements never run, conn.commit() is never reached, and
the implicit transaction is discarded when the connection goes away, so
only the steps already run (and only through a commit among them) are
visible. -/
def committedAfterFailure (init : CatTable) (prog : List DBStep) (k : ℕ) : CatTable :=
  (runSteps ⟨init, init⟩ (prog.take k)).committed

/-- DELETE FROM category_budgets WHERE user_id = uid (app.py line 211). -/
def delete_cat_budgets (uid : ℕ) : CatTable → CatTable :=
  fun t => t.filter fun r => !(r.1 == uid)

/-- INSERT INTO category_budgets (app.py lines 215-218). -/
def insert_cat_budget (uid : ℕ) (name : String) (amt : ℚ) : CatTable → CatTable :=
  fun t => t ++ [(uid, name, amt)]

/-- Data statements of the budget handler on the category_budgets table
(app.py lines 211-218): clear the old rows, then insert the submitted
ones.  The other-incomes handler of lines 172-178 has the same shape. -/
def budget_stmts (uid : ℕ) (entries : List (String × ℚ)) : List (CatTable → CatTable) :=
  delete_cat_budgets uid :: entries.map fun p => insert_cat_budget uid p.1 p.2

/-- The full statement sequence the budget handler issues on its
connection: the data statements followed by the single conn.commit() of
app.py line 220. -/
def budget_program (uid : ℕ) (entries : List (String × ℚ)) : List DBStep :=
  (budget_stmts uid entries).map DBStep.stmt ++ [DBStep.commit]

/-- Control-flow atoms of a request handler around its connection:
get_db_connection(), a cursor execute that either succeeds or raises, and
conn.close(). -/
inductive PyStep
  | openConn
  | query (fails : Bool)
  | closeConn

/-- Exit-relevant state of a handler run: whether its connection is still
open and whether an exception is propagating. -/
structure PyState where
  connOpen : Bool
  raised : Bool
deriving DecidableEq

/-- One step of handler execution.  Once an exception is propagating the
remaining statements of the handler body are skipped: app.py has no
try/finally or context manager around any connection. -/
def pyStep (s : PyState) (st : PyStep) : PyState :=
  if s.raised then s
  else
    match st with
    | .openConn => { s with connOpen := true }
    | .closeConn => { s with connOpen := false }
    | .query f => if f then { s with raised := true } else s

/-- Skeleton shared by every handler of app.py that touches the database
(dashboard lines 310-362, get_user_data lines 63-82, and the rest): open
the connection, run the queries in order, close, return.  The fail list
says which queries raise. -/
def handler_steps (fail : List Bool) : List PyStep :=
  PyStep.openConn :: (fail.map PyStep.query ++ [PyStep.closeConn])

/-- Run a handler from the initial state: no connection, no exception. -/
def run_handler (steps : List PyStep) : PyState :=
  steps.foldl pyStep ⟨false, false⟩

/-- The income_sources dict of app.py lines 542-544: the main monthly
income under the fixed label, then one entry per other_incomes row, later
entries overwriting equal keys. -/
def income_sources (main_income : Option ℚ) (other_incomes : List (String × ℚ)) :
    List (String × ℚ) :=
  ("Salary / Main", main_income.getD 0) :: other_incomes

/-- The value income_sources.get(tag, 0) of app.py line 587 denotes,
where tag is the main-income label. -/
def summary_income_value (main_income : Option ℚ) (other_incomes : List (String × ℚ)) : ℚ :=
  pyDictGet (income_sources main_income other_incomes) "Salary / Main" 0

/-- Labels of summary_line_graph (app.py line 585). -/
def summary_line_graph_labels (expenses : List Expense) : List ℕ :=
  (expenses_by_month expenses).map Prod.fst

/-- Expense series of summary_line_graph (app.py line 586). -/
def summary_line_graph_expenses (expenses : List Expense) : List ℚ :=
  (expenses_by_month expenses).map Prod.snd

/-- Income series of summary_line_graph (app.py line 587): one copy of the
looked-up income value per month entry. -/
def summary_line_graph_income (expenses : List Expense) (main_income : Option ℚ)
    (other_incomes : List (String × ℚ)) : List ℚ :=
  List.replicate (expenses_by_month expenses).length
    (summary_income_value main_income other_incomes)

/-! Helper lemmas. -/

/-- A SQL SUM with the Python "or 0" default is the plain list sum. -/
theorem sqlSum_getD (l : List ℚ) : (sqlSum l).getD 0 = l.sum := by
  cases l <;> simp [sqlSum]

/-- Splitting a sum along a filter and its complement. -/
theorem sum_filter_not_add {α : Type} (p : α → Bool) (f : α → ℚ) (l : List α) :
    ((l.filter p).map f).sum + ((l.filter fun a => !(p a)).map f).sum = (l.map f).sum := by
  induction l with
  | nil => simp
  | cons a t ih =>
    cases h : p a with
    | true =>
      simp only [List.filter_cons, h, Bool.not_true, Bool.false_eq_true, if_false, if_true,
        List.map_cons, List.sum_cons]
      linarith [ih]
    | false =>
      simp only [List.filter_cons, h, Bool.not_false, Bool.false_eq_true, if_false, if_true,
        List.map_cons, List.sum_cons]
      linarith [ih]

/-- Summing per-key group sums over a duplicate-free cover of the keys
gives the total sum. -/
theorem sum_groups {α : Type} (key : α → String) (f : α → ℚ) :
    ∀ ks : List String, ks.Nodup → ∀ l : List α, (∀ a ∈ l, key a ∈ ks) →
      (ks.map fun k => ((l.filter fun a => key a == k).map f).sum).sum = (l.map f).sum := by
  intro ks
  induction ks with
  | nil =>
    intro _ l hcov
    have hl : l = [] := List.eq_nil_iff_forall_not_mem.mpr fun a ha => by
      simpa using hcov a ha
    subst hl; simp
  | cons k ks ih =>
    intro hnd l hcov
    have hk : k ∉ ks := (List.nodup_cons.mp hnd).1
    have hnd' : ks.Nodup := (List.nodup_cons.mp hnd).2
    have hcov' : ∀ a ∈ l.filter fun a => !(key a == k), key a ∈ ks := by
      intro a ha
      have hmem := List.mem_filter.mp ha
      have hne : ¬(key a = k) := by simpa using hmem.2
      rcases List.mem_cons.mp (hcov a hmem.1) with h | h
      · exact absurd h hne
      · exact h
    have hrest : ∀ k' ∈ ks,
        (l.filter fun a => key a == k')
          = (l.filter fun a => !(key a == k)).filter fun a => key a == k' := by
      intro k' hk'
      rw [List.filter_filter]
      apply List.filter_congr
      intro a _
      by_cases h : key a = k'
      · have hkne : k' ≠ k := fun hq => hk (hq ▸ hk')
        simp [h, hkne]
      · simp [h]
    have hmapeq :
        (ks.map fun k' => ((l.filter fun a => key a == k').map f).sum)
          = ks.map fun k' =>
              (((l.filter fun a => !(key a == k)).filter fun a => key a == k').map f).sum := by
      apply List.map_congr_left
      intro k' hk'
      rw [hrest k' hk']
    simp only [List.map_cons, List.sum_cons, hmapeq,
      ih hnd' (l.filter fun a => !(key a == k)) hcov']
    exact sum_filter_not_add (fun a => key a == k) f l

/-! Claim C1: budget utilization. -/

/-- Claim C1, counterexample to the claim as stated: at spend 50 and
total budget -100 the code yields 0, while spend divided by total budget
times 100 is -50, so budget_used_percent does not always equal the
formula of the claim. -/
theorem budget_used_percent_counterexample :
    budget_used_percent 50 (-100) = 0 ∧ (50 : ℚ) / (-100) * 100 = -50 ∧ ((0 : ℚ) ≠ -50) := by
  refine ⟨?_, by norm_num, by norm_num⟩
  rw [budget_used_percent, if_neg (by norm_num)]

/-- Claim C1 (amended): budget_used_percent equals spend divided by
total_budget times 100 whenever total_budget is positive, and is exactly 0
whenever total_budget is nonpositive, in particular when it is 0, for
every value of spend; no division by zero is performed. -/
theorem budget_used_percent_spec (spend tb : ℚ) :
    (0 < tb → budget_used_percent spend tb = spend / tb * 100)
    ∧ (tb ≤ 0 → budget_used_percent spend tb = 0) := by
  constructor
  · intro h
    rw [budget_used_percent, if_pos h]
  · intro h
    rw [budget_used_percent, if_neg (not_lt.mpr h)]

/-- Witness for C1: the amended theorem applied at spend 50 with a
positive budget of 200 and with a zero budget. -/
theorem budget_used_percent_spec_witness :
    budget_used_percent 50 200 = 50 / 200 * 100 ∧ budget_used_percent 50 0 = 0 :=
  ⟨(budget_used_percent_spec 50 200).1 (by norm_num),
   (budget_used_percent_spec 50 0).2 (by norm_num)⟩

/-! Claim C2: monthly spend total. -/

/-- Claim C2: the monthly spend total equals the sum of the amounts of
exactly those expenses whose calendar month number equals the month number
of the current date; membership in the filtered row set is decided by the
month-number comparison alone (no rolling 30-day window and no year
comparison appear in the predicate). -/
theorem total_spent_this_month_spec (expenses : List Expense) (today : Date) :
    total_spent_this_month expenses today
      = ((expenses.filter fun e => e.date.month == today.month).map fun e => e.amount).sum
    ∧ ∀ e : Expense,
        e ∈ expenses.filter (monthMatches today) ↔ e ∈ expenses ∧ e.date.month = today.month := by
  constructor
  · rw [total_spent_this_month, sqlSum_getD]
    rfl
  · intro e
    simp [List.mem_filter, monthMatches]

/-- Witness for C2: at a concrete state with two May expenses of 20 and 30
and one April expense of 7, the theorem yields the May total 50. -/
theorem total_spent_this_month_spec_witness :
    total_spent_this_month
      [⟨20, "Food", ⟨2024, 5, 3⟩⟩, ⟨30, "Food", ⟨2024, 5, 4⟩⟩, ⟨7, "Travel", ⟨2024, 4, 20⟩⟩]
      ⟨2024, 5, 15⟩ = 50 :=
  (total_spent_this_month_spec
      [⟨20, "Food", ⟨2024, 5, 3⟩⟩, ⟨30, "Food", ⟨2024, 5, 4⟩⟩, ⟨7, "Travel", ⟨2024, 4, 20⟩⟩]
      ⟨2024, 5, 15⟩).1.trans (by norm_num [List.filter_cons])

/-! Claim C3: category breakdown sums to the monthly total. -/

/-- Claim C3: for every expense set, the sum of the values of the
current-month category breakdown equals the monthly spend total computed
under the same month filter. -/
theorem expense_by_category_sum (expenses : List Expense) (today : Date) :
    ((expense_by_category expenses today).map Prod.snd).sum
      = total_spent_this_month expenses today := by
  have hperm := List.perm_insertionSort (fun a b : String × ℚ => b.2 ≤ a.2)
    ((monthCats expenses today).map fun c => (c, monthCatSum expenses today c))
  rw [expense_by_category, (hperm.map Prod.snd).sum_eq]
  rw [List.map_map]
  have hsnd :
      (Prod.snd ∘ fun c => (c, monthCatSum expenses today c))
        = fun c => monthCatSum expenses today c := rfl
  rw [hsnd]
  rw [total_spent_this_month, sqlSum_getD]
  exact sum_groups (fun e => e.category) (fun e => e.amount) (monthCats expenses today)
    (List.nodup_dedup _) (expenses.filter (monthMatches today))
    (fun a ha => List.mem_dedup.mpr (List.mem_map_of_mem _ ha))

/-! Claim C7: deleting a foreign goal. -/

/-- Claim C7: when no goal row with the given id belongs to the acting
user, the delete touches zero rows, the table is unchanged (so every
user, in particular the owner, keeps the same goal list), and the handler
still reports success with its removal flash. -/
theorem delete_goal_foreign_spec (goals : List Goal) (goal_id acting_user : ℕ)
    (h : ∀ g ∈ goals, g.id = goal_id → g.user_id ≠ acting_user) :
    delete_goal_affected goals goal_id acting_user = 0
    ∧ delete_goal goals goal_id acting_user = goals
    ∧ (∀ u, user_goals (delete_goal goals goal_id acting_user) u = user_goals goals u)
    ∧ (delete_goal_handler goals goal_id acting_user).2 = "Goal removed." := by
  have hpred : ∀ g ∈ goals, (g.id == goal_id && g.user_id == acting_user) = false := by
    intro g hg
    by_cases h1 : g.id = goal_id
    · have h2 := h g hg h1
      simp [h1, h2]
    · simp [h1]
  have hdel : delete_goal goals goal_id acting_user = goals := by
    rw [delete_goal]
    apply List.filter_eq_self.mpr
    intro g hg
    rw [hpred g hg]
    rfl
  refine ⟨?_, hdel, fun u => by rw [hdel], rfl⟩
  rw [delete_goal_affected]
  have : (goals.filter fun g => g.id == goal_id && g.user_id == acting_user) = [] :=
    List.filter_eq_nil_iff.mpr fun g hg => by rw [hpred g hg]; simp
  rw [this]
  rfl

/-- Witness for C7: a concrete table with one goal of user 2; user 3
deletes that goal id and nothing changes. -/
theorem delete_goal_foreign_spec_witness :
    delete_goal [⟨1, 2, "Car", 5000, "savings"⟩] 1 3 = [⟨1, 2, "Car", 5000, "savings"⟩]
    ∧ delete_goal_affected [⟨1, 2, "Car", 5000, "savings"⟩] 1 3 = 0 :=
  ⟨(delete_goal_foreign_spec [⟨1, 2, "Car", 5000, "savings"⟩] 1 3 (by decide)).2.1,
   (delete_goal_foreign_spec [⟨1, 2, "Car", 5000, "savings"⟩] 1 3 (by decide)).1⟩

/-! Claim C4: multi-month report series. -/

/-- Claim C4: the multi-month series is strictly ascending in its
year-month keys, has at most 6 entries, each entry is a month that has
expenses together with that month's expense sum, every month with
expenses that was left out is older than every month shown (so the most
recent months are kept), and the output is the same for any insertion
order of the underlying expense rows. -/
theorem expenses_by_month_spec (l : List Expense) :
    ((expenses_by_month l).Pairwise fun p q => p.1 < q.1)
    ∧ (expenses_by_month l).length ≤ 6
    ∧ (∀ p ∈ expenses_by_month l, (∃ e ∈ l, ymKey e.date = p.1) ∧ p.2 = monthTotal l p.1)
    ∧ (∀ k : ℕ, (∃ e ∈ l, ymKey e.date = k) → k ∉ (expenses_by_month l).map Prod.fst →
        ∀ p ∈ expenses_by_month l, k < p.1)
    ∧ (∀ l' : List Expense, l.Perm l' → expenses_by_month l = expenses_by_month l') := by
  have hs_perm := List.perm_insertionSort descKey (monthKeys l)
  have hs_sorted := List.sorted_insertionSort descKey (monthKeys l)
  have hs_nodup : (List.insertionSort descKey (monthKeys l)).Nodup :=
    hs_perm.symm.nodup (List.nodup_dedup _)
  have ht_sub := List.take_sublist 6 (List.insertionSort descKey (monthKeys l))
  have ht_sorted : ((List.insertionSort descKey (monthKeys l)).take 6).Pairwise descKey :=
    List.Pairwise.sublist ht_sub hs_sorted
  have ht_nodup : ((List.insertionSort descKey (monthKeys l)).take 6).Nodup :=
    List.Nodup.sublist ht_sub hs_nodup
  have hr_nodup : (((List.insertionSort descKey (monthKeys l)).take 6).reverse).Nodup :=
    List.nodup_reverse.mpr ht_nodup
  have hr_le : (((List.insertionSort descKey (monthKeys l)).take 6).reverse).Pairwise
      (fun a b : ℕ => a ≤ b) :=
    List.pairwise_reverse.mpr ht_sorted
  have hr_lt : (((List.insertionSort descKey (monthKeys l)).take 6).reverse).Pairwise
      (fun a b : ℕ => a < b) :=
    (hr_le.and hr_nodup).imp fun h => lt_of_le_of_ne h.1 h.2
  have hmem_r : ∀ k : ℕ, k ∈ ((List.insertionSort descKey (monthKeys l)).take 6).reverse →
      ∃ e ∈ l, ymKey e.date = k := by
    intro k hk
    have hk1 : k ∈ (List.insertionSort descKey (monthKeys l)).take 6 :=
      List.mem_reverse.mp hk
    have hk2 : k ∈ monthKeys l := hs_perm.mem_iff.mp (ht_sub.subset hk1)
    have hk3 : k ∈ l.map fun e => ymKey e.date := List.mem_dedup.mp hk2
    rcases List.mem_map.mp hk3 with ⟨e, he, heq⟩
    exact ⟨e, he, heq⟩
  refine ⟨?_, ?_, ?_, ?_, ?_⟩
  · exact List.pairwise_map.mpr hr_lt
  · rw [expenses_by_month, List.length_map, List.length_reverse, List.length_take]
    omega
  · intro p hp
    rcases List.mem_map.mp hp with ⟨k, hk, hpk⟩
    subst hpk
    exact ⟨hmem_r k hk, rfl⟩
  · intro k hke hknot p hp
    have hkeys : (expenses_by_month l).map Prod.fst
        = ((List.insertionSort descKey (monthKeys l)).take 6).reverse := by
      rw [expenses_by_month, List.map_map]
      exact List.map_id _
    rw [hkeys] at hknot
    have hknot' : k ∉ (List.insertionSort descKey (monthKeys l)).take 6 := fun hc =>
      hknot (List.mem_reverse.mpr hc)
    have hks : k ∈ monthKeys l := by
      rcases hke with ⟨e, he, heq⟩
      exact List.mem_dedup.mpr (List.mem_map.mpr ⟨e, he, heq⟩)
    have hkin : k ∈ List.insertionSort descKey (monthKeys l) := hs_perm.mem_iff.mpr hks
    have hsplit : List.insertionSort descKey (monthKeys l)
        = (List.insertionSort descKey (monthKeys l)).take 6
          ++ (List.insertionSort descKey (monthKeys l)).drop 6 :=
      (List.take_append_drop 6 _).symm
    have hkdrop : k ∈ (List.insertionSort descKey (monthKeys l)).drop 6 := by
      rw [hsplit] at hkin
      rcases List.mem_append.mp hkin with hc | hc
      · exact absurd hc hknot'
      · exact hc
    rcases List.mem_map.mp hp with ⟨k', hk', hpk⟩
    have hk't : k' ∈ (List.insertionSort descKey (monthKeys l)).take 6 :=
      List.mem_reverse.mp hk'
    have hpw := hs_sorted
    rw [List.Sorted, hsplit] at hpw
    have hcross := (List.pairwise_append.mp hpw).2.2
    have hle : k ≤ k' := hcross k' hk't k hkdrop
    have hne : k ≠ k' := fun hq => hknot' (hq ▸ hk't)
    have : k < k' := lt_of_le_of_ne hle hne
    rw [← hpk]
    exact this
  · intro l' hperm'
    have hkperm : (monthKeys l).Perm (monthKeys l') := (hperm'.map _).dedup
    have hs_eq : List.insertionSort descKey (monthKeys l)
        = List.insertionSort descKey (monthKeys l') :=
      List.eq_of_perm_of_sorted
        ((List.perm_insertionSort descKey (monthKeys l)).trans
          (hkperm.trans (List.perm_insertionSort descKey (monthKeys l')).symm))
        (List.sorted_insertionSort descKey (monthKeys l))
        (List.sorted_insertionSort descKey (monthKeys l'))
    have hmt : ∀ k, monthTotal l k = monthTotal l' k := fun k =>
      ((hperm'.filter _).map _).sum_eq
    rw [expenses_by_month, expenses_by_month, hs_eq]
    exact List.map_congr_left fun k _ => by rw [hmt k]

/-- Witness for C4: the months January 100, February 50, March 0 of 2024
inserted in a different order give the same series, and the series is the
ascending list of the three month sums. -/
theorem expenses_by_month_spec_witness :
    expenses_by_month
        [⟨50, "Misc", ⟨2024, 2, 10⟩⟩, ⟨100, "Misc", ⟨2024, 1, 10⟩⟩, ⟨0, "Misc", ⟨2024, 3, 10⟩⟩]
      = expenses_by_month
        [⟨100, "Misc", ⟨2024, 1, 10⟩⟩, ⟨50, "Misc", ⟨2024, 2, 10⟩⟩, ⟨0, "Misc", ⟨2024, 3, 10⟩⟩]
    ∧ expenses_by_month
        [⟨100, "Misc", ⟨2024, 1, 10⟩⟩, ⟨50, "Misc", ⟨2024, 2, 10⟩⟩, ⟨0, "Misc", ⟨2024, 3, 10⟩⟩]
      = [(202401, 100), (202402, 50), (202403, 0)] := by
  constructor
  · exact (expenses_by_month_spec
      [⟨50, "Misc", ⟨2024, 2, 10⟩⟩, ⟨100, "Misc", ⟨2024, 1, 10⟩⟩,
        ⟨0, "Misc", ⟨2024, 3, 10⟩⟩]).2.2.2.2
      [⟨100, "Misc", ⟨2024, 1, 10⟩⟩, ⟨50, "Misc", ⟨2024, 2, 10⟩⟩, ⟨0, "Misc", ⟨2024, 3, 10⟩⟩]
      (List.Perm.swap (⟨100, "Misc", ⟨2024, 1, 10⟩⟩ : Expense)
        (⟨50, "Misc", ⟨2024, 2, 10⟩⟩ : Expense) [(⟨0, "Misc", ⟨2024, 3, 10⟩⟩ : Expense)])
  · norm_num [expenses_by_month, monthKeys, monthTotal, ymKey, descKey,
      List.insertionSort, List.orderedInsert, List.filter_cons, List.dedup_cons_of_not_mem,
      List.dedup_cons_of_mem]

/-! Claim C5: budget versus actual. -/

/-- Lookup of an absent key yields none. -/
theorem pyDictLookup_eq_none {l : List (String × ℚ)} {k : String}
    (h : ∀ p ∈ l, p.1 ≠ k) : pyDictLookup l k = none := by
  rw [pyDictLookup]
  have hnil : l.filter (fun p => p.1 == k) = [] :=
    List.filter_eq_nil_iff.mpr fun p hp => by simp [h p hp]
  rw [hnil]
  rfl

/-- The dict get of an absent key yields the default. -/
theorem pyDictGet_default {l : List (String × ℚ)} {k : String} (d : ℚ)
    (h : k ∉ l.map Prod.fst) : pyDictGet l k d = d := by
  rw [pyDictGet, pyDictLookup_eq_none fun p hp hq => h (List.mem_map.mpr ⟨p, hp, hq⟩)]
  rfl

/-- Filtering an association list with duplicate-free keys down to one key
leaves exactly the binding of that key. -/
theorem filter_key_singleton {l : List (String × ℚ)} (hnd : (l.map Prod.fst).Nodup)
    {k : String} {v : ℚ} (h : (k, v) ∈ l) :
    l.filter (fun p => p.1 == k) = [(k, v)] := by
  induction l with
  | nil => cases h
  | cons a t ih =>
    have ha1 : a.1 ∉ t.map Prod.fst := (List.nodup_cons.mp hnd).1
    have hnd' : (t.map Prod.fst).Nodup := (List.nodup_cons.mp hnd).2
    rcases List.mem_cons.mp h with h1 | h1
    · rw [← h1]
      rw [← h1] at ha1
      have hrest : t.filter (fun p => p.1 == k) = [] := by
        apply List.filter_eq_nil_iff.mpr
        intro p hp
        simp only [beq_iff_eq]
        intro hpk
        exact ha1 (List.mem_map.mpr ⟨p, hp, hpk⟩)
      simp [List.filter_cons, hrest]
    · have hk : k ∈ t.map Prod.fst := List.mem_map.mpr ⟨(k, v), h1, rfl⟩
      have hne : a.1 ≠ k := fun hq => ha1 (hq ▸ hk)
      rw [List.filter_cons, if_neg (by simp [hne])]
      exact ih hnd' h1

/-- The dict get of a present key of a duplicate-free association list is
its bound value. -/
theorem pyDictGet_eq_of_mem {l : List (String × ℚ)} (hnd : (l.map Prod.fst).Nodup)
    {k : String} {v : ℚ} (h : (k, v) ∈ l) (d : ℚ) : pyDictGet l k d = v := by
  rw [pyDictGet, pyDictLookup, filter_key_singleton hnd h]
  rfl

/-- A category that does not occur among the current-month expenses has a
zero current-month spend. -/
theorem monthCatSum_eq_zero {expenses : List Expense} {today : Date} {c : String}
    (h : c ∉ monthCats expenses today) : monthCatSum expenses today c = 0 := by
  rw [monthCatSum]
  have hnil : ((expenses.filter (monthMatches today)).filter fun e => e.category == c) = [] := by
    apply List.filter_eq_nil_iff.mpr
    intro e he
    simp only [beq_iff_eq]
    intro hec
    exact h (List.mem_dedup.mpr (List.mem_map.mpr ⟨e, he, hec⟩))
  rw [hnil]
  rfl

/-- Reading an index below the length of a mapped list through the
defaulted getter gives the function at the underlying entry. -/
theorem getD_map_list {α β : Type} (f : α → β) (l : List α) (i : ℕ) (h : i < l.length)
    (d : α) (d' : β) : (l.map f).getD i d' = f (l.getD i d) := by
  rw [List.getD_eq_getElem l d h, List.getD_eq_getElem (l.map f) d' (by simpa using h),
    List.getElem_map]

/-- Keys of the actual_spending dict are the distinct current-month
categories. -/
theorem actual_spending_keys (expenses : List Expense) (today : Date) :
    (actual_spending expenses today).map Prod.fst = monthCats expenses today := by
  rw [actual_spending, List.map_map]
  exact List.map_id _

/-- Keys of the budgeted_amounts dict are the category names of the
category_budgets rows. -/
theorem budgeted_amounts_keys (cbs : List CategoryBudget) :
    (budgeted_amounts cbs).map Prod.fst = cbs.map fun b => b.category_name := by
  rw [budgeted_amounts, List.map_map]
  rfl

/-- Claim C5: the label list is the strictly ascending sorted union of the
categories having a budget row or current-month spend; the budgeted and
actual arrays have the same length as the labels; at every index the
budgeted entry is the budget amount of that label (0 when the label has no
budget row) and the actual entry is the current-month spend of that label
(which is 0 when the label has no spend).  The hypothesis that category
names of budget rows are duplicate-free is the uniqueness constraint of
the category_budgets table. -/
theorem budget_vs_actual_spec (expenses : List Expense) (cbs : List CategoryBudget)
    (today : Date) (hnd : (cbs.map fun b => b.category_name).Nodup) :
    ((all_budget_cats expenses cbs today).Pairwise fun a b : String => a < b)
    ∧ (∀ c : String, c ∈ all_budget_cats expenses cbs today ↔
        (c ∈ (expenses.filter (monthMatches today)).map (fun e => e.category)
          ∨ c ∈ cbs.map fun b => b.category_name))
    ∧ (budget_vs_actual_budgeted expenses cbs today).length
        = (all_budget_cats expenses cbs today).length
    ∧ (budget_vs_actual_actual expenses cbs today).length
        = (all_budget_cats expenses cbs today).length
    ∧ (∀ i, i < (all_budget_cats expenses cbs today).length →
        ∀ b ∈ cbs, b.category_name = (all_budget_cats expenses cbs today).getD i "" →
          (budget_vs_actual_budgeted expenses cbs today).getD i 0 = b.amount)
    ∧ (∀ i, i < (all_budget_cats expenses cbs today).length →
        (all_budget_cats expenses cbs today).getD i "" ∉ (cbs.map fun b => b.category_name) →
          (budget_vs_actual_budgeted expenses cbs today).getD i 0 = 0)
    ∧ (∀ i, i < (all_budget_cats expenses cbs today).length →
        (budget_vs_actual_actual expenses cbs today).getD i 0
          = monthCatSum expenses today ((all_budget_cats expenses cbs today).getD i "")) := by
  have hperm := List.perm_insertionSort (fun a b : String => a ≤ b)
    (((actual_spending expenses today).map Prod.fst
      ++ (budgeted_amounts cbs).map Prod.fst).dedup)
  have hsorted := List.sorted_insertionSort (fun a b : String => a ≤ b)
    (((actual_spending expenses today).map Prod.fst
      ++ (budgeted_amounts cbs).map Prod.fst).dedup)
  have hnodup : (all_budget_cats expenses cbs today).Nodup :=
    hperm.symm.nodup (List.nodup_dedup _)
  refine ⟨?_, ?_, ?_, ?_, ?_, ?_, ?_⟩
  · exact (List.Pairwise.and hsorted hnodup).imp fun h => lt_of_le_of_ne h.1 h.2
  · intro c
    rw [all_budget_cats, hperm.mem_iff, List.mem_dedup, List.mem_append,
      actual_spending_keys, budgeted_amounts_keys, monthCats, List.mem_dedup]
  · rw [budget_vs_actual_budgeted, List.length_map]
  · rw [budget_vs_actual_actual, List.length_map]
  · intro i hi b hb hname
    rw [budget_vs_actual_budgeted, getD_map_list _ _ i hi ""]
    rw [← hname]
    have hmem : (b.category_name, b.amount) ∈ budgeted_amounts cbs := by
      rw [budgeted_amounts]
      exact List.mem_map.mpr ⟨b, hb, rfl⟩
    exact pyDictGet_eq_of_mem (by rw [budgeted_amounts_keys]; exact hnd) hmem 0
  · intro i hi habs
    rw [budget_vs_actual_budgeted, getD_map_list _ _ i hi ""]
    exact pyDictGet_default 0 (by rw [budgeted_amounts_keys]; exact habs)
  · intro i hi
    rw [budget_vs_actual_actual, getD_map_list _ _ i hi ""]
    by_cases hc : (all_budget_cats expenses cbs today).getD i "" ∈ monthCats expenses today
    · have hmem : ((all_budget_cats expenses cbs today).getD i "",
          monthCatSum expenses today ((all_budget_cats expenses cbs today).getD i ""))
            ∈ actual_spending expenses today := by
        rw [actual_spending]
        exact List.mem_map.mpr ⟨(all_budget_cats expenses cbs today).getD i "", hc, rfl⟩
      exact pyDictGet_eq_of_mem
        (by rw [actual_spending_keys]; exact List.nodup_dedup _) hmem 0
    · rw [pyDictGet_default 0 (by rw [actual_spending_keys]; exact hc),
        monthCatSum_eq_zero hc]

/-- Witness for C5: the scenario of the specification, expenses of 20 and
30 in category Food this month against a Food budget of 40; index 0 of the
arrays carries the budgeted 40 and the actual 50. -/
theorem budget_vs_actual_spec_witness :
    (budget_vs_actual_budgeted
        [⟨20, "Food", ⟨2024, 5, 3⟩⟩, ⟨30, "Food", ⟨2024, 5, 4⟩⟩]
        [⟨"Food", 40⟩] ⟨2024, 5, 15⟩).getD 0 0 = 40
    ∧ (budget_vs_actual_actual
        [⟨20, "Food", ⟨2024, 5, 3⟩⟩, ⟨30, "Food", ⟨2024, 5, 4⟩⟩]
        [⟨"Food", 40⟩] ⟨2024, 5, 15⟩).getD 0 0 = 50 := by
  have h := budget_vs_actual_spec
    [⟨20, "Food", ⟨2024, 5, 3⟩⟩, ⟨30, "Food", ⟨2024, 5, 4⟩⟩]
    [⟨"Food", 40⟩] ⟨2024, 5, 15⟩ (by decide)
  constructor
  · exact h.2.2.2.2.1 0 (by decide) ⟨"Food", 40⟩ (by decide) (by decide)
  · have h7 := h.2.2.2.2.2.2 0 (by decide)
    rw [show (all_budget_cats
        [⟨20, "Food", ⟨2024, 5, 3⟩⟩, ⟨30, "Food", ⟨2024, 5, 4⟩⟩]
        [⟨"Food", 40⟩] ⟨2024, 5, 15⟩).getD 0 "" = "Food" from by decide] at h7
    rw [h7]
    norm_num [monthCatSum, monthMatches, List.filter_cons]

/-! Claim C6: weekly series. -/

/-- Filtering commutes with mapping by testing the predicate on the image. -/
theorem filter_map_comm {α β : Type} (f : α → β) (p : β → Bool) (l : List α) :
    (l.map f).filter p = (l.filter fun a => p (f a)).map f := by
  induction l with
  | nil => rfl
  | cons a t ih =>
    by_cases h : p (f a) = true
    · simp [List.filter_cons, h, ih]
    · simp [List.filter_cons, h, ih]

/-- Day labels separate serial days inside any window of 7 consecutive
days: two in-window days with the same label are equal. -/
theorem dayLabel_inj {a x y : ℤ} (hx1 : a ≤ x) (hx2 : x ≤ a + 6) (hy1 : a ≤ y)
    (hy2 : y ≤ a + 6) (h : dayLabel x = dayLabel y) : x = y := by
  have hidx : ∀ i : ℕ, i < 7 → ∀ j : ℕ, j < 7 →
      dayNames.getD i "" = dayNames.getD j "" → i = j := by decide
  rw [dayLabel, dayLabel] at h
  have hxb : ((x + 4) % 7).toNat < 7 := by omega
  have hyb : ((y + 4) % 7).toNat < 7 := by omega
  have heq := hidx _ hxb _ hyb h
  omega

/-- Filtering a duplicate-free list by a predicate that exactly one of its
members satisfies leaves that member alone. -/
theorem filter_eq_singleton_of_unique {α : Type} {l : List α} (nd : l.Nodup) {p : α → Bool}
    {d : α} (hd : d ∈ l) (hpd : p d = true) (huniq : ∀ x ∈ l, p x = true → x = d) :
    l.filter p = [d] := by
  induction l with
  | nil => cases hd
  | cons a t ih =>
    have hat : a ∉ t := (List.nodup_cons.mp nd).1
    have hnd' : t.Nodup := (List.nodup_cons.mp nd).2
    rcases List.mem_cons.mp hd with h1 | h1
    · rw [← h1] at hat ⊢
      rw [List.filter_cons, if_pos hpd]
      have hrest : t.filter p = [] := List.filter_eq_nil_iff.mpr fun x hx hpx =>
        hat ((huniq x (List.mem_cons_of_mem _ hx) hpx) ▸ hx)
      rw [hrest]
    · have hpa : ¬(p a = true) := fun hpa =>
        hat ((huniq a (List.mem_cons_self a t) hpa).symm ▸ h1)
      rw [List.filter_cons, if_neg hpa]
      exact ih hnd' h1 fun x hx hpx => huniq x (List.mem_cons_of_mem _ hx) hpx

/-- The weekly dict lookup reduces to the last date of the window whose
day label matches, carrying its per-date sum. -/
theorem weekly_lookup_eq (expenses : List Expense) (today : Date) (k : String) :
    pyDictLookup (weekly_expenses_data expenses today) k
      = (((weeklyDates expenses today).filter fun s => dayLabel s == k).getLast?).map
          fun s => dateSum expenses today s := by
  rw [pyDictLookup, weekly_expenses_data, weekly_rows, List.map_map, filter_map_comm,
    List.getLast?_map, Option.map_map]
  rfl

/-- Claim C6, counterexample to the claim as stated: with one expense of 5
dated 2024-05-16 (the day after the current date 2024-05-15), the weekly
series maps THU to 5, while the sum over trailing 7-day expenses bearing
the THU label is empty, so the claimed value is absent. -/
theorem weekly_expenses_counterexample :
    pyDictLookup (weekly_expenses_data [⟨5, "Misc", ⟨2024, 5, 16⟩⟩] ⟨2024, 5, 15⟩) "THU"
        = some 5
    ∧ claimed_weekly_value [⟨5, "Misc", ⟨2024, 5, 16⟩⟩] ⟨2024, 5, 15⟩ "THU" = none := by
  constructor
  · rw [weekly_lookup_eq]
    have hdates : (weeklyDates [⟨5, "Misc", ⟨2024, 5, 16⟩⟩] ⟨2024, 5, 15⟩).filter
        (fun s => dayLabel s == "THU") = [19859] := by decide
    rw [hdates]
    have hes : weeklyEs [⟨5, "Misc", ⟨2024, 5, 16⟩⟩] ⟨2024, 5, 15⟩
        = [⟨5, "Misc", ⟨2024, 5, 16⟩⟩] := by decide
    have hf : ([(⟨5, "Misc", ⟨2024, 5, 16⟩⟩ : Expense)].filter
        fun e => e.date.serial == 19859) = [⟨5, "Misc", ⟨2024, 5, 16⟩⟩] := by decide
    simp [dateSum, hes, hf]
  · have hnil : claimed_weekly_filter [⟨5, "Misc", ⟨2024, 5, 16⟩⟩] ⟨2024, 5, 15⟩ "THU"
        = [] := by decide
    rw [claimed_weekly_value, hnil]
    rfl

/-- Claim C6 (amended): the weekly query window is unbounded above, so it
is the trailing 7-day window only when no matching expense is future
dated; under that hypothesis every present label carries the sum of the
amounts of the expenses of the trailing 7 days inclusive of today bearing
that label, and a label is present exactly when such an expense exists.
Without the hypothesis a future date sharing a label with an in-window
date overwrites its per-date sum instead of accumulating. -/
theorem weekly_expenses_spec (expenses : List Expense) (today : Date)
    (hnf : ∀ e ∈ expenses, today.serial - 6 ≤ e.date.serial → e.date.serial ≤ today.serial)
    (k : String) :
    pyDictLookup (weekly_expenses_data expenses today) k
      = claimed_weekly_value expenses today k := by
  have hesb : ∀ e ∈ weeklyEs expenses today,
      today.serial - 6 ≤ e.date.serial ∧ e.date.serial ≤ today.serial := by
    intro e he
    have hm := List.mem_filter.mp he
    have h1 : today.serial - 6 ≤ e.date.serial := by simpa using hm.2
    exact ⟨h1, hnf e hm.1 h1⟩
  have hperm := List.perm_insertionSort (fun a b : ℤ => a ≤ b)
    (((weeklyEs expenses today).map fun e => e.date.serial).dedup)
  have hnd : (weeklyDates expenses today).Nodup :=
    hperm.symm.nodup (List.nodup_dedup _)
  have hdates_mem : ∀ s ∈ weeklyDates expenses today,
      ∃ e ∈ weeklyEs expenses today, e.date.serial = s := by
    intro s hs
    have hs1 : s ∈ ((weeklyEs expenses today).map fun e => e.date.serial).dedup :=
      hperm.mem_iff.mp hs
    rcases List.mem_map.mp (List.mem_dedup.mp hs1) with ⟨e, he, heq⟩
    exact ⟨e, he, heq⟩
  have hdates_bounds : ∀ s ∈ weeklyDates expenses today,
      today.serial - 6 ≤ s ∧ s ≤ today.serial := by
    intro s hs
    rcases hdates_mem s hs with ⟨e, he, heq⟩
    rcases hesb e he with ⟨h1, h2⟩
    exact ⟨heq ▸ h1, heq ▸ h2⟩
  have hserial_mem : ∀ e ∈ weeklyEs expenses today,
      e.date.serial ∈ weeklyDates expenses today := fun e he =>
    hperm.mem_iff.mpr (List.mem_dedup.mpr (List.mem_map.mpr ⟨e, he, rfl⟩))
  have hclaim_eq : claimed_weekly_filter expenses today k
      = (weeklyEs expenses today).filter fun e => dayLabel e.date.serial == k := by
    rw [claimed_weekly_filter, weeklyEs, List.filter_filter]
    apply List.filter_congr
    intro e he
    by_cases hlb : today.serial - 6 ≤ e.date.serial
    · have hub : e.date.serial ≤ today.serial := hnf e he hlb
      simp [hlb, hub, Bool.and_comm]
    · simp [hlb]
  rw [weekly_lookup_eq]
  by_cases hex : ∃ s ∈ weeklyDates expenses today, dayLabel s = k
  · rcases hex with ⟨d, hd, hdk⟩
    have huniq : ∀ x ∈ weeklyDates expenses today, (dayLabel x == k) = true → x = d := by
      intro x hx hxk
      have hx' : dayLabel x = k := by simpa using hxk
      have hbx := hdates_bounds x hx
      have hbd := hdates_bounds d hd
      exact dayLabel_inj hbx.1 (by omega) hbd.1 (by omega) (hx'.trans hdk.symm)
    have hfilter : (weeklyDates expenses today).filter (fun s => dayLabel s == k) = [d] :=
      filter_eq_singleton_of_unique hnd hd (by simp [hdk]) huniq
    rw [hfilter]
    have hval : ((claimed_weekly_filter expenses today k).map fun e => e.amount).sum
        = dateSum expenses today d := by
      rw [hclaim_eq, dateSum]
      have hfeq : ((weeklyEs expenses today).filter fun e => dayLabel e.date.serial == k)
          = (weeklyEs expenses today).filter fun e => e.date.serial == d := by
        apply List.filter_congr
        intro e he
        by_cases hes : e.date.serial = d
        · simp [hes, hdk]
        · have hlk : ¬(dayLabel e.date.serial = k) := fun hq =>
            hes (huniq e.date.serial (hserial_mem e he) (by simp [hq]))
          simp [hes, hlk]
      rw [hfeq]
    have hne : claimed_weekly_filter expenses today k ≠ [] := by
      rw [hclaim_eq]
      rcases hdates_mem d hd with ⟨e, he, hes⟩
      have hmem : e ∈ (weeklyEs expenses today).filter fun e => dayLabel e.date.serial == k :=
        List.mem_filter.mpr ⟨he, by simp [hes, hdk]⟩
      exact fun hnil => by rw [hnil] at hmem; cases hmem
    rw [claimed_weekly_value,
      if_neg fun hemp => hne (List.isEmpty_iff.mp hemp), hval]
    rfl
  · have hfilter : (weeklyDates expenses today).filter (fun s => dayLabel s == k) = [] :=
      List.filter_eq_nil_iff.mpr fun s hs hsk => hex ⟨s, hs, by simpa using hsk⟩
    rw [hfilter]
    have hcnil : claimed_weekly_filter expenses today k = [] := by
      rw [hclaim_eq]
      apply List.filter_eq_nil_iff.mpr
      intro e he hek
      exact hex ⟨e.date.serial, hserial_mem e he, by simpa using hek⟩
    rw [claimed_weekly_value, hcnil]
    rfl

/-- Witness for C6: one expense of 7 on the current date 2024-05-15, a
Wednesday; the weekly series maps WED to 7 as the amended claim states. -/
theorem weekly_expenses_spec_witness :
    pyDictLookup (weekly_expenses_data [⟨7, "Misc", ⟨2024, 5, 15⟩⟩] ⟨2024, 5, 15⟩) "WED"
      = some 7 := by
  have h := weekly_expenses_spec [⟨7, "Misc", ⟨2024, 5, 15⟩⟩] ⟨2024, 5, 15⟩ (by decide) "WED"
  have hf : claimed_weekly_filter [⟨7, "Misc", ⟨2024, 5, 15⟩⟩] ⟨2024, 5, 15⟩ "WED"
      = [⟨7, "Misc", ⟨2024, 5, 15⟩⟩] := by decide
  rw [h, claimed_weekly_value, hf]
  simp

/-! Claim C8: the delete-then-reinsert sequences and atomicity. -/

/-- Running a concatenation of statement sequences composes. -/
theorem runSteps_append (s : ConnState) (p q : List DBStep) :
    runSteps s (p ++ q) = runSteps (runSteps s p) q :=
  List.foldl_append _ _ _ _

/-- Data statements never change the committed state. -/
theorem runSteps_stmts_committed (fs : List (CatTable → CatTable)) (s : ConnState) :
    (runSteps s (fs.map DBStep.stmt)).committed = s.committed := by
  induction fs generalizing s with
  | nil => rfl
  | cons f t ih =>
    show (runSteps (runStep s (DBStep.stmt f)) (t.map DBStep.stmt)).committed = s.committed
    rw [ih]
    rfl

/-- Data statements fold over the pending table. -/
theorem runSteps_stmts_pending (fs : List (CatTable → CatTable)) (s : ConnState) :
    (runSteps s (fs.map DBStep.stmt)).pending = fs.foldl (fun t f => f t) s.pending := by
  induction fs generalizing s with
  | nil => rfl
  | cons f t ih =>
    show (runSteps (runStep s (DBStep.stmt f)) (t.map DBStep.stmt)).pending = _
    rw [ih]
    rfl

/-- Claim C8, counterexample to the claim as stated: for the concrete
budget submission of Food 50 and Rent 100 by user 1 over an initial table
holding Food 40 of user 1 and a row of user 2, every failure point before
the final commit leaves the committed table exactly as it was: no state
with the old rows deleted and the new rows missing is reachable, because
the handler issues one commit after the whole sequence and the implicit
transaction of the driver is discarded on failure. -/
theorem budget_program_counterexample :
    committedAfterFailure [(1, "Food", 40), (2, "Other", 5)]
        (budget_program 1 [("Food", 50), ("Rent", 100)]) 0
        = [(1, "Food", 40), (2, "Other", 5)]
    ∧ committedAfterFailure [(1, "Food", 40), (2, "Other", 5)]
        (budget_program 1 [("Food", 50), ("Rent", 100)]) 1
        = [(1, "Food", 40), (2, "Other", 5)]
    ∧ committedAfterFailure [(1, "Food", 40), (2, "Other", 5)]
        (budget_program 1 [("Food", 50), ("Rent", 100)]) 2
        = [(1, "Food", 40), (2, "Other", 5)]
    ∧ committedAfterFailure [(1, "Food", 40), (2, "Other", 5)]
        (budget_program 1 [("Food", 50), ("Rent", 100)]) 3
        = [(1, "Food", 40), (2, "Other", 5)] := by decide

/-- Claim C8 (amended): the delete-then-reinsert sequences run with a
single commit as their final statement; a failure at any earlier point
leaves the committed category budgets unchanged, so a partially cleared
committed state is not reachable, and a completed run commits exactly the
delete followed by the inserts. -/
theorem budget_program_spec (uid : ℕ) (entries : List (String × ℚ)) (init : CatTable) :
    (∀ k, k < (budget_program uid entries).length →
      committedAfterFailure init (budget_program uid entries) k = init)
    ∧ (runSteps ⟨init, init⟩ (budget_program uid entries)).committed
        = entries.foldl (fun t p => insert_cat_budget uid p.1 p.2 t)
            (delete_cat_budgets uid init) := by
  constructor
  · intro k hk
    have hlen : (budget_program uid entries).length
        = ((budget_stmts uid entries).map DBStep.stmt).length + 1 := by
      rw [budget_program, List.length_append]
      rfl
    have hk' : k ≤ ((budget_stmts uid entries).map DBStep.stmt).length := by omega
    rw [committedAfterFailure, budget_program, List.take_append_of_le_length hk']
    rw [← List.map_take]
    exact runSteps_stmts_committed _ _
  · have hsplit : (runSteps ⟨init, init⟩ (budget_program uid entries)).committed
        = (runSteps ⟨init, init⟩ ((budget_stmts uid entries).map DBStep.stmt)).pending := by
      rw [budget_program, runSteps_append]
      rfl
    rw [hsplit, runSteps_stmts_pending, budget_stmts, List.foldl_cons, List.foldl_map]

/-- Witness for C8: user 1 resubmits one Rent entry over a table holding
one Food row; a failure after the delete statement still shows the
original table. -/
theorem budget_program_spec_witness :
    committedAfterFailure [(1, "Food", 40)] (budget_program 1 [("Rent", 100)]) 1
      = [(1, "Food", 40)] :=
  (budget_program_spec 1 [("Rent", 100)] [(1, "Food", 40)]).1 1 (by decide)

/-! Claim C9: connection release on exit paths. -/

/-- Once an exception propagates, the remaining handler statements do not
run, so the state is frozen. -/
theorem run_raised_absorb (steps : List PyStep) (c : Bool) :
    steps.foldl pyStep ⟨c, true⟩ = ⟨c, true⟩ := by
  induction steps with
  | nil => rfl
  | cons a t ih =>
    show t.foldl pyStep (pyStep ⟨c, true⟩ a) = _
    exact ih

/-- Claim C9, counterexample to the claim as stated: a dashboard request
whose first of nine queries raises exits with the exception propagating
and the connection still open, so not every exit path releases the
connection. -/
theorem handler_conn_counterexample :
    (run_handler (handler_steps (true :: List.replicate 8 false))).raised = true
    ∧ (run_handler (handler_steps (true :: List.replicate 8 false))).connOpen = true := by
  constructor <;> rfl

/-- Claim C9 (amended): a handler of the shape shared by every handler of
app.py (open the connection, run the queries, close, return) closes its
connection on the normal exit path, but when any query raises it exits
with the exception propagating and the connection still open: release is
guaranteed only on non-error paths. -/
theorem run_handler_spec (fail : List Bool) :
    run_handler (handler_steps fail)
      = if fail.any id then ⟨true, true⟩ else ⟨false, false⟩ := by
  rw [run_handler, handler_steps, List.foldl_cons]
  show (fail.map PyStep.query ++ [PyStep.closeConn]).foldl pyStep ⟨true, false⟩ = _
  induction fail with
  | nil => rfl
  | cons b t ih =>
    cases b with
    | false =>
      rw [List.map_cons, List.cons_append, List.foldl_cons]
      show (t.map PyStep.query ++ [PyStep.closeConn]).foldl pyStep ⟨true, false⟩ = _
      rw [ih]
      simp [List.any_cons]
    | true =>
      rw [List.map_cons, List.cons_append, List.foldl_cons]
      show (t.map PyStep.query ++ [PyStep.closeConn]).foldl pyStep ⟨true, true⟩ = _
      rw [run_raised_absorb]
      simp [List.any_cons]

/-! Claim C10: summary line graph. -/

/-- Claim C10, counterexample to the claim as stated: with monthly income
100 and an other-income row named exactly like the main label carrying
999, the income series repeats 999, not the monthly income 100. -/
theorem summary_line_graph_counterexample :
    summary_line_graph_income [⟨25, "Misc", ⟨2024, 1, 10⟩⟩] (some 100) [("Salary / Main", 999)]
        = [999]
    ∧ ((999 : ℚ) ≠ 100) := by
  constructor
  · have hlen : (expenses_by_month [⟨25, "Misc", ⟨2024, 1, 10⟩⟩]).length = 1 := by decide
    have hv : summary_income_value (some 100) [("Salary / Main", 999)] = 999 := by decide
    rw [summary_line_graph_income, hlen, hv]
    rfl
  · norm_num

/-- Claim C10 (amended): labels, expenses and income are parallel arrays
of equal length, and, provided no other-income row is named exactly like
the main label (which would overwrite it in the income_sources dict), the
income array repeats the single monthly income value (0 when there is no
income row) once per label. -/
theorem summary_line_graph_spec (expenses : List Expense) (main_income : Option ℚ)
    (other_incomes : List (String × ℚ))
    (h : ∀ p ∈ other_incomes, p.1 ≠ "Salary / Main") :
    (summary_line_graph_labels expenses).length = (summary_line_graph_expenses expenses).length
    ∧ (summary_line_graph_income expenses main_income other_incomes).length
        = (summary_line_graph_labels expenses).length
    ∧ summary_line_graph_income expenses main_income other_incomes
        = List.replicate (summary_line_graph_labels expenses).length (main_income.getD 0) := by
  have hval : summary_income_value main_income other_incomes = main_income.getD 0 := by
    rw [summary_income_value, income_sources, pyDictGet, pyDictLookup, List.filter_cons,
      if_pos (by simp)]
    have hrest : other_incomes.filter (fun p => p.1 == "Salary / Main") = [] :=
      List.filter_eq_nil_iff.mpr fun p hp => by simp [h p hp]
    rw [hrest]
    rfl
  refine ⟨?_, ?_, ?_⟩
  · rw [summary_line_graph_labels, summary_line_graph_expenses, List.length_map,
      List.length_map]
  · rw [summary_line_graph_income, summary_line_graph_labels, List.length_replicate,
      List.length_map]
  · rw [summary_line_graph_income, summary_line_graph_labels, List.length_map, hval]

/-- Witness for C10: one January expense, monthly income 100, one other
income named Bonus; the income series is one copy of 100. -/
theorem summary_line_graph_spec_witness :
    summary_line_graph_income [⟨25, "Misc", ⟨2024, 1, 10⟩⟩] (some 100) [("Bonus", 50)]
      = List.replicate (summary_line_graph_labels [⟨25, "Misc", ⟨2024, 1, 10⟩⟩]).length
          ((some (100 : ℚ)).getD 0) :=
  (summary_line_graph_spec [⟨25, "Misc", ⟨2024, 1, 10⟩⟩] (some 100) [("Bonus", 50)]
    (by decide)).2.2
